import Mathlib

/-!
Verification development for the RIT trading repository.

The Python sources are embedded shallowly:
- floats are idealized as exact rationals (ℚ), integers as ℤ/ℕ;
- Python dicts keyed by ticker strings become association lists
  (`List (String × _)`), with `lookupD` for `d[k]` reads and `setD`
  for `d[k] = v` writes (replace the first binding, append if absent);
- code that can raise an uncaught exception returns `Option`/`Except`
  (`none` / `.error` marks the raise);
- the configuration module `src/config.py` is not part of the sources, so
  the configuration record types (`SecurityConfig`, `MMParams`) are
  modelled from the specification text; their numeric contents are
  parameters of every theorem.
-/

/-- Dict read `d[k]`: first binding of `k`, if any. -/
def lookupD {α : Type} : List (String × α) → String → Option α
  | [], _ => none
  | (k, v) :: rest, key => if k = key then some v else lookupD rest key

/-- Dict write `d[k] = v`: replace the first binding of `k`, or append a new
binding when `k` is absent (Python dict assignment semantics). -/
def setD {α : Type} : List (String × α) → String → α → List (String × α)
  | [], key, val => [(key, val)]
  | (k, v) :: rest, key, val =>
    if k = key then (key, val) :: rest else (k, v) :: setD rest key val

theorem lookup_setD_self {α : Type} (l : List (String × α)) (k : String) (v : α) :
    lookupD (setD l k v) k = some v := by
  induction l with
  | nil => simp [setD, lookupD]
  | cons hd tl ih =>
    rcases hd with ⟨a, b⟩
    by_cases h : a = k
    · simp [setD, h, lookupD]
    · simp [setD, h, lookupD, ih]

theorem lookup_setD_ne {α : Type} (l : List (String × α)) (k k' : String) (v : α)
    (h : k' ≠ k) : lookupD (setD l k v) k' = lookupD l k' := by
  have hne : k ≠ k' := Ne.symm h
  induction l with
  | nil => simp [setD, lookupD, hne]
  | cons hd tl ih =>
    rcases hd with ⟨a, b⟩
    by_cases hk : a = k
    · subst hk
      simp [setD, lookupD, hne]
    · by_cases hk' : a = k'
      · subst hk'
        simp [setD, hk, lookupD]
      · simp [setD, hk, lookupD, hk', ih]

theorem lookup_mem {α : Type} {l : List (String × α)} {k : String} {v : α}
    (h : lookupD l k = some v) : (k, v) ∈ l := by
  induction l with
  | nil => simp [lookupD] at h
  | cons hd tl ih =>
    rcases hd with ⟨a, b⟩
    by_cases hk : a = k
    · rw [lookupD, if_pos hk] at h
      obtain rfl : b = v := by injection h
      subst hk
      exact List.mem_cons_self _ _
    · rw [lookupD, if_neg hk] at h
      exact List.mem_cons_of_mem _ (ih h)

/-- Volatility tier of an instrument (spec §3: closed LOW/MEDIUM/HIGH enum). -/
inductive VolTier where
  | LOW
  | MEDIUM
  | HIGH
deriving DecidableEq

/-- Per-instrument static configuration. Modelled from the spec (§3, §6):
the defining module `src/config.py` is absent from the sources; only the
fields the embedded code reads are kept. -/
structure SecurityConfig where
  position_limit : ℤ
  min_spread : ℚ
  max_order_size : ℤ
  volatility : VolTier
deriving DecidableEq

/-- Mutable state of `PositionTracker` (src/Algo/src/position_tracker.py):
per-ticker signed positions, cost bases, last fill prices, and the injected
configuration table. -/
structure Tracker where
  positions : List (String × ℤ)
  position_costs : List (String × ℚ)
  last_prices : List (String × ℚ)
  config : List (String × SecurityConfig)
deriving DecidableEq

/-- `PositionTracker.__init__`: every configured ticker starts at position 0,
cost 0.0 and last price 0.0. -/
def initTracker (config : List (String × SecurityConfig)) : Tracker :=
  { positions := config.map (fun kv => (kv.1, (0 : ℤ)))
    position_costs := config.map (fun kv => (kv.1, (0 : ℚ)))
    last_prices := config.map (fun kv => (kv.1, (0 : ℚ)))
    config := config }

/-- The cost-basis block of `PositionTracker.update_position`
(src/Algo/src/position_tracker.py, lines 41-49), applied to the state whose
position was already updated to `new_position`: skipped when no fill price
is given; otherwise the buying branch adds `change * price`, and the
selling branch divides the cost basis by the (already updated, post-fill)
position to form `avg_cost` and adds `change * avg_cost`. `none` marks the
KeyError of a missing cost-basis key. -/
def apply_fill (st1 : Tracker) (ticker : String) (change new_position : ℤ) :
    Option ℚ → Option Tracker
  | none => some st1
  | some p =>
    match lookupD st1.position_costs ticker with
    | none => none
    | some cost =>
      if 0 < change then
        some { st1 with
          position_costs := setD st1.position_costs ticker (cost + (change : ℚ) * p)
          last_prices := setD st1.last_prices ticker p }
      else
        let avg_cost : ℚ :=
          if new_position ≠ 0 then cost / (new_position : ℚ) else p
        some { st1 with
          position_costs := setD st1.position_costs ticker (cost + (change : ℚ) * avg_cost)
          last_prices := setD st1.last_prices ticker p }

/-- `PositionTracker.update_position` (src/Algo/src/position_tracker.py,
lines 21-54). Result `none` marks an uncaught Python exception (a missing
config or cost-basis key); `some (accepted, state)` is the normal return,
where a rejected update returns `False` with the state untouched. -/
def update_position (st : Tracker) (ticker : String) (change : ℤ)
    (price : Option ℚ) : Option (Bool × Tracker) :=
  match lookupD st.positions ticker with
  | none => some (false, st)
  | some pos =>
    match lookupD st.config ticker with
    | none => none
    | some cfg =>
      let new_position := pos + change
      if cfg.position_limit < |new_position| then some (false, st)
      else
        match apply_fill { st with positions := setD st.positions ticker new_position }
            ticker change new_position price with
        | none => none
        | some st2 => some (true, st2)

/-- One proposed position change: ticker, signed delta, optional fill price. -/
structure TrackerOp where
  ticker : String
  change : ℤ
  price : Option ℚ
deriving DecidableEq

/-- Run a sequence of proposed changes through the sole mutating entry point,
threading the state (rejected changes leave it unchanged); `none` marks an
uncaught exception somewhere in the sequence. -/
def run_updates (st : Tracker) : List TrackerOp → Option Tracker
  | [] => some st
  | op :: rest =>
    match update_position st op.ticker op.change op.price with
    | none => none
    | some (_, st') => run_updates st' rest

/-- Portfolio gross exposure Σ|position_i| over the ledger state. -/
def grossExposure (st : Tracker) : ℤ :=
  (st.positions.map (fun kv => |kv.2|)).sum

/-- Signed portfolio net position Σ position_i over the ledger state. -/
def netSum (st : Tracker) : ℤ :=
  (st.positions.map (fun kv => kv.2)).sum

/-- Modelled from the spec: weighted-average-cost accounting reduces the cost
basis proportionally on a position-reducing fill, using the pre-fill
weighted-average cost (spec §4.2 step 3); the code under test diverges. -/
def spec_cost_after_reduce (pos : ℤ) (cost : ℚ) (change : ℤ) : ℚ :=
  cost * ((pos + change : ℤ) : ℚ) / (pos : ℚ)

/-- Modelled from the spec: realized PnL of a long-reducing fill, the
crossing quantity times fill price minus pre-fill weighted-average cost. -/
def spec_realized_pnl (pos : ℤ) (cost : ℚ) (change : ℤ) (fill : ℚ) : ℚ :=
  (fill - cost / (pos : ℚ)) * ((-change : ℤ) : ℚ)

/-- Sample two-instrument configuration used for concrete evaluations. -/
def sampleCfg : List (String × SecurityConfig) :=
  [("A", ⟨100, 1/100, 500, VolTier.LOW⟩), ("B", ⟨100, 1/100, 500, VolTier.LOW⟩)]

/-- Python `str.upper()` on ASCII strings: uppercase every character.
(`String.toUpper` itself is stuck for kernel reduction, so the character
list is mapped directly.) -/
def strUpper (s : String) : String := String.mk (s.data.map Char.toUpper)

/-- One price level of an order-book side. -/
structure OBLevel where
  price : ℚ
  quantity : ℚ
deriving DecidableEq

/-- Order-book snapshot: bid levels and ask levels. -/
structure OrderBook where
  bids : List OBLevel
  asks : List OBLevel
deriving DecidableEq

/-- `calculate_liquidity` (src/Liabilities/src/close_out_utils.py, lines 2-22):
sum of ask-side quantities for a SELL tender, bid-side quantities for a BUY
tender; any other action string raises ValueError (the `.error` case). -/
def calculate_liquidity (order_book : OrderBook) (action : String) : Except String ℚ :=
  if strUpper action = "SELL" then
    Except.ok ((order_book.asks.map OBLevel.quantity).sum)
  else if strUpper action = "BUY" then
    Except.ok ((order_book.bids.map OBLevel.quantity).sum)
  else
    Except.error "Invalid action. Use BUY or SELL."

/-- `estimate_close_out_time` (src/Liabilities/src/close_out_utils.py, lines
24-49). `Except.ok none` is the float("inf") return for non-positive
liquidity; the explicit `max_order_size = 0` guard models the Python
ZeroDivisionError raised by `tender_size / max_order_size`, which in the
source occurs only after the liquidity check has passed. -/
def estimate_close_out_time (tender_size : ℚ) (order_book : OrderBook)
    (action : String) (max_order_size : ℚ) : Except String (Option ℚ) :=
  match calculate_liquidity order_book action with
  | Except.error e => Except.error e
  | Except.ok liquidity =>
    if liquidity ≤ 0 then Except.ok none
    else if max_order_size = 0 then Except.error "ZeroDivisionError"
    else
      let num_orders : ℚ := ((⌈tender_size / max_order_size⌉ : ℤ) : ℚ)
      Except.ok (some (num_orders * (max_order_size / liquidity) + num_orders))

/-- A tender offer as consumed by src/Liabilities (dict fields; the `.get`
defaults of the source are the field values passed in). -/
structure Tender where
  tender_id : ℕ
  ticker : String
  quantity : ℚ
  price : ℚ
  action : String
deriving DecidableEq

/-- Per-ticker market data record built by src/Liabilities/main.py (lines
103-116): volatility is `Option` because `calculate_volatility` can return
None. -/
structure TickerMarket where
  last : ℚ
  bid : ℚ
  ask : ℚ
  volatility : Option ℚ
  liquidity : ℚ
  order_book : OrderBook
deriving DecidableEq

/-- Evaluation configuration dict. `volatility_multiplier` and
`max_order_size` are `Option` because the dict built in
src/Liabilities/main.py (lines 34-38) does not contain them, and the source
reads them with raising `config[...]` lookups. `liq_tender_floor` models the
minimum liquidity-to-tender quotient key, which is present. -/
structure TenderConfig where
  volatility_multiplier : Option ℚ
  max_order_size : Option ℚ
  liq_tender_floor : ℚ
deriving DecidableEq

/-- Decision dict returned by `evaluate_tender`; early rejections carry no
profit or close-time entries. -/
structure TenderDecision where
  decision : String
  reason : String
  profit : Option ℚ
  est_close : Option (Option ℚ)
deriving DecidableEq

/-- `evaluate_tender` (src/Liabilities/src/tender.py, lines 3-82). The
`.error` results are the uncaught exceptions of the source: a missing
ticker entry in `market_data` (line 26), a missing `volatility_multiplier`
config key or a None volatility in the price adjustment (line 35, evaluated
before the price-sanity checks of lines 38-46), and a zero tender quantity
in the liquidity-ratio division (line 64). Errors inside the close-out
estimation try-block are caught and turned into REJECT decisions. -/
def evaluate_tender (tender : Tender) (market_data : List (String × TickerMarket))
    (time_remaining : ℚ) (config : TenderConfig) : Except String TenderDecision :=
  let action := strUpper tender.action
  match lookupD market_data tender.ticker with
  | none => Except.error "KeyError: market_data has no entry for ticker"
  | some md =>
    match config.volatility_multiplier with
    | none => Except.error "KeyError: volatility_multiplier"
    | some vm =>
      match md.volatility with
      | none => Except.error "TypeError: volatility is None"
      | some vol =>
        let adjusted_bid := md.bid - vol * vm
        let adjusted_ask := md.ask + vol * vm
        if action = "SELL" ∧ tender.price ≤ md.ask then
          Except.ok ⟨"REJECT", "Tender price is not above the market ask price", none, none⟩
        else if action = "BUY" ∧ md.bid ≤ tender.price then
          Except.ok ⟨"REJECT", "Tender price is not below the market bid price", none, none⟩
        else
          match config.max_order_size with
          | none => Except.ok ⟨"REJECT", "Error estimating close-out time", none, none⟩
          | some mos =>
            match estimate_close_out_time tender.quantity md.order_book action mos with
            | Except.error _ => Except.ok ⟨"REJECT", "Error estimating close-out time", none, none⟩
            | Except.ok none => Except.ok ⟨"REJECT", "Not enough time to close position", none, none⟩
            | Except.ok (some ect) =>
              if time_remaining < ect then
                Except.ok ⟨"REJECT", "Not enough time to close position", none, none⟩
              else if tender.quantity = 0 then
                Except.error "ZeroDivisionError: tender quantity is zero"
              else if md.liquidity / tender.quantity < config.liq_tender_floor then
                Except.ok ⟨"REJECT", "Insufficient liquidity", none, none⟩
              else
                let profit_per_share :=
                  if action = "SELL" then tender.price - adjusted_ask
                  else adjusted_bid - tender.price
                let total_profit := profit_per_share * tender.quantity
                if 0 < total_profit then
                  Except.ok ⟨"ACCEPT", "Profitable", some total_profit, some (some ect)⟩
                else
                  Except.ok ⟨"REJECT", "Not profitable", some total_profit, some (some ect)⟩

/-- The per-cycle tender loop of src/Liabilities/main.py (lines 92-129):
every active tender is evaluated independently; no evaluated-id record is
kept anywhere, so each entry of the list yields its own result. -/
def process_tenders (tenders : List Tender) (market_data : List (String × TickerMarket))
    (time_remaining : ℚ) (config : TenderConfig) : List (Except String TenderDecision) :=
  tenders.map (fun t => evaluate_tender t market_data time_remaining config)

/-- Period-over-period simple returns `np.diff(prices) / prices[:-1]`
(src/Liabilities/src/volatility.py, line 35). -/
def pct_returns (prices : List ℚ) : List ℚ :=
  List.zipWith (fun a b => (b - a) / a) prices prices.tail

/-- Arithmetic mean of a list (0 on the empty list, as a 0/0 rational). -/
def listMean (l : List ℚ) : ℚ := l.sum / (l.length : ℚ)

/-- Population variance, the square of `np.std` (ddof = 0). -/
def pop_variance (l : List ℚ) : ℚ :=
  ((l.map (fun x => (x - listMean l) ^ 2)).sum) / (l.length : ℚ)

/-- Result payload of `calculate_volatility`. The source returns the float
`(np.std(returns) + tender_impact) * time_decay`; to keep the embedding in
exact rationals the `formula` constructor carries the three determining
components (variance of returns, whose square root is the np.std baseline;
the tender-impact addend; the time-decay factor) instead of the single
irrational product. -/
inductive VolValue where
  | defaultVol (v : ℚ)
  | formula (baseline_variance tender_impact time_decay : ℚ)
deriving DecidableEq

/-- `calculate_volatility` (src/Liabilities/src/volatility.py, lines 3-49).
Check order as in the source: unsupported ticker first (returns None),
then the insufficient-data default 0.05, and only then the ValueError
validations of liquidity and elapsed time. -/
def calculate_volatility (ticker : String) (prices : List ℚ)
    (liquidity elapsed_time current_tender_size total_time : ℚ) :
    Except String (Option VolValue) :=
  if ¬ (strUpper ticker = "ABC" ∨ strUpper ticker = "XYZ") then
    Except.ok none
  else if prices.length < 2 then
    Except.ok (some (VolValue.defaultVol 0.05))
  else if liquidity ≤ 0 then
    Except.error "Liquidity must be positive"
  else if elapsed_time < 0 ∨ total_time < elapsed_time then
    Except.error "Elapsed time must be within range"
  else
    Except.ok (some (VolValue.formula
      (pop_variance (pct_returns prices))
      (current_tender_size / (liquidity + 1))
      (1 - elapsed_time / total_time)))

/-- Bessel-corrected sample variance, the square of `statistics.stdev`. -/
def bessel_variance (l : List ℚ) : ℚ :=
  ((l.map (fun x => (x - listMean l) ^ 2)).sum) / ((l.length : ℚ) - 1)

/-- The mean-reversion size/spread adjustment of `Trader.execute_trades`
(src/Algo/src/trader.py, lines 136-146). The source computes
`z = (mid - mean) / stdev` when `stdev > 0` (and 0 otherwise) and returns
1.2 when `z > 2` or `z < -2`, else 1.0. To stay in exact rationals the
irrational stdev is eliminated: for `stdev > 0` (equivalently variance > 0)
the disjunction `z > 2 or z < -2` is equivalent to
`(mid - mean)^2 > 4 * variance`, and for stdev = 0 the source sets z = 0,
so no adjustment fires. -/
def mean_reversion_adjustment (hist : List ℚ) (mid : ℚ) : ℚ :=
  let m := listMean hist
  let v := bessel_variance hist
  if 0 < v ∧ 4 * v < (mid - m) ^ 2 then 1.2 else 1

/-- Spread multiplier per volatility tier (trader.py, lines 158-162). -/
def spread_multiplier : VolTier → ℚ
  | VolTier.LOW => 0.8
  | VolTier.MEDIUM => 1
  | VolTier.HIGH => 1.3

/-- Size multiplier per volatility tier (trader.py, lines 176-180). -/
def size_multiplier : VolTier → ℚ
  | VolTier.LOW => 1.2
  | VolTier.MEDIUM => 1
  | VolTier.HIGH => 0.8

/-- Python `int(x)`: truncation toward zero. -/
def truncQ (x : ℚ) : ℤ := if 0 ≤ x then ⌊x⌋ else -⌊-x⌋

/-- Python `round(x, 2)`: round half to even at two decimals, idealized on
exact rationals. -/
def round2 (x : ℚ) : ℚ :=
  let y := 100 * x
  let f : ℤ := ⌊y⌋
  let r := y - (f : ℚ)
  (if r > 1/2 then ((f + 1 : ℤ) : ℚ)
   else if r < 1/2 then (f : ℚ)
   else if f % 2 = 0 then (f : ℚ) else ((f + 1 : ℤ) : ℚ)) / 100

/-- Deque append with maxlen eviction (`deque(maxlen=20)` in trader.py). -/
def pushHistory (hist : List ℚ) (maxlen : ℕ) (x : ℚ) : List ℚ :=
  let h := hist ++ [x]
  if maxlen < h.length then h.drop (h.length - maxlen) else h

/-- Final size clamp of trader.py lines 207-208:
`min(max(min_order_size, int(base)), max_order_size)`. -/
def clamp_size (min_order_size max_order_size : ℤ) (base : ℚ) : ℤ :=
  min (max min_order_size (truncQ base)) max_order_size

/-- Position-skewed buy base size (trader.py, lines 183-188). -/
def skewed_buy_base (base0 : ℤ) (skew mra : ℚ) : ℚ :=
  if 0 < skew then (base0 : ℚ) * (1 - |skew|) else (base0 : ℚ) * (1 + |skew| * mra)

/-- Position-skewed sell base size (trader.py, lines 183-188). -/
def skewed_sell_base (base0 : ℤ) (skew mra : ℚ) : ℚ :=
  if 0 < skew then (base0 : ℚ) * (1 + |skew| * mra) else (base0 : ℚ) * (1 - |skew|)

/-- Market-making parameters from `TRADING_CONFIG['market_making']`.
Modelled from the spec (§6 recognized options): the defining module
src/config.py is absent from the sources. `base_order_size` and
`max_position_size` are the per-ticker dict entries for the instrument at
hand. -/
structure MMParams where
  target_spread : ℚ
  min_order_size : ℤ
  base_order_size : ℚ
  max_position_size : ℚ
deriving DecidableEq

/-- Market data for one security as consumed by `execute_trades`. -/
structure Security where
  ticker : String
  bid : ℚ
  ask : ℚ
deriving DecidableEq

/-- Observable outcome of one `Trader.execute_trades` call: either the cycle
was skipped (including the catch-all exception handler returning 0 orders),
or quotes were computed, with the submission flags recording whether each
side's order was sent to the venue. -/
inductive TradeOutcome where
  | skip
  | quotes (our_bid our_ask : ℚ) (buy_size sell_size : ℤ)
      (buySubmitted sellSubmitted : Bool)
deriving DecidableEq

/-- `Trader.execute_trades` (src/Algo/src/trader.py, lines 107-236) for one
instrument. `hist` is the price history before the call; the mid price is
appended first, as in `update_price_history`. The
`max_position_size = 0` guard models the ZeroDivisionError of
`current_position / max_position`, caught by the surrounding handler which
returns 0 orders placed (`.skip`). -/
def execute_trades (sec : Security) (hist : List ℚ) (current_position : ℤ)
    (cfg : SecurityConfig) (params : MMParams) : TradeOutcome :=
  if sec.bid ≤ 0 ∨ sec.ask ≤ 0 ∨ sec.ask ≤ sec.bid then TradeOutcome.skip
  else
    let mid := (sec.bid + sec.ask) / 2
    let market_spread := sec.ask - sec.bid
    if (7 : ℚ)/200 < market_spread / mid then TradeOutcome.skip
    else
      let hist1 := pushHistory hist 20 mid
      if hist1.length < 2 then TradeOutcome.skip
      else if params.max_position_size = 0 then TradeOutcome.skip
      else
        let mra := mean_reversion_adjustment hist1 mid
        let target_spread := max cfg.min_spread params.target_spread
        let position_skew := (current_position : ℚ) / params.max_position_size
        let adjusted_spread :=
          target_spread * spread_multiplier cfg.volatility * (1 + |position_skew| * (1/5))
        let final_spread := min adjusted_spread ((3 : ℚ)/100) / mra
        let base0 : ℤ := truncQ (params.base_order_size * size_multiplier cfg.volatility)
        let base_buy := skewed_buy_base base0 position_skew mra
        let base_sell := skewed_sell_base base0 position_skew mra
        let half_spread := final_spread / 2
        let our_bid := round2 (mid * (1 - half_spread))
        let our_ask := round2 (mid * (1 + half_spread))
        let emergency := (4 : ℚ)/5 < |position_skew|
        let our_ask := if emergency ∧ 0 < position_skew then sec.bid else our_ask
        let our_bid := if emergency ∧ ¬ 0 < position_skew then sec.ask else our_bid
        let base_buy := if emergency then (if 0 < position_skew then 0 else base_buy * (5/2)) else base_buy
        let base_sell := if emergency then (if 0 < position_skew then base_sell * (5/2) else 0) else base_sell
        let buy_size := clamp_size params.min_order_size cfg.max_order_size base_buy
        let sell_size := clamp_size params.min_order_size cfg.max_order_size base_sell
        let can_trade := |(current_position : ℚ)| < params.max_position_size
        TradeOutcome.quotes our_bid our_ask buy_size sell_size
          (if buy_size ≠ 0 ∧ can_trade then true else false)
          (if sell_size ≠ 0 ∧ can_trade then true else false)

/-- Ask price of a quoting outcome, if any. -/
def askOf : TradeOutcome → Option ℚ
  | TradeOutcome.skip => none
  | TradeOutcome.quotes _ a _ _ _ _ => some a

/-- Bid price of a quoting outcome, if any. -/
def bidOf : TradeOutcome → Option ℚ
  | TradeOutcome.skip => none
  | TradeOutcome.quotes b _ _ _ _ _ => some b

/-- Buy size of a quoting outcome, if any. -/
def buySizeOf : TradeOutcome → Option ℤ
  | TradeOutcome.skip => none
  | TradeOutcome.quotes _ _ b _ _ _ => some b

/-- Sell size of a quoting outcome, if any. -/
def sellSizeOf : TradeOutcome → Option ℤ
  | TradeOutcome.skip => none
  | TradeOutcome.quotes _ _ _ s _ _ => some s

/-- Whether a buy order was submitted in a quoting outcome. -/
def buySubmittedOf : TradeOutcome → Option Bool
  | TradeOutcome.skip => none
  | TradeOutcome.quotes _ _ _ _ b _ => some b

/-- Whether a sell order was submitted in a quoting outcome. -/
def sellSubmittedOf : TradeOutcome → Option Bool
  | TradeOutcome.skip => none
  | TradeOutcome.quotes _ _ _ _ _ s => some s

/-- The per-ticker invariant the ledger maintains: every recorded position is
within the configured position limit of its instrument. -/
def TrackInv (st : Tracker) : Prop :=
  ∀ t p, lookupD st.positions t = some p →
    ∀ c, lookupD st.config t = some c → |p| ≤ c.position_limit

theorem lookup_map_const {β : Type} (cfg : List (String × SecurityConfig))
    (t : String) (z p : β)
    (h : lookupD (cfg.map (fun kv => (kv.1, z))) t = some p) : p = z := by
  induction cfg with
  | nil => simp [lookupD] at h
  | cons hd tl ih =>
    rcases hd with ⟨a, b⟩
    by_cases hk : a = t
    · rw [List.map_cons, lookupD, if_pos hk] at h
      injection h with h
      exact h.symm
    · rw [List.map_cons, lookupD, if_neg hk] at h
      exact ih h

theorem init_inv (cfg : List (String × SecurityConfig))
    (hcfg : ∀ kv ∈ cfg, 0 ≤ kv.2.position_limit) :
    TrackInv (initTracker cfg) := by
  intro t p hp c hc
  simp only [initTracker] at hp hc
  obtain rfl : p = 0 := lookup_map_const cfg t 0 p hp
  simpa using hcfg (t, c) (lookup_mem hc)

theorem apply_fill_frame (st1 : Tracker) (t : String) (c np : ℤ)
    (pr : Option ℚ) (st2 : Tracker)
    (h : apply_fill st1 t c np pr = some st2) :
    st2.positions = st1.positions ∧ st2.config = st1.config := by
  cases pr with
  | none =>
    simp only [apply_fill, Option.some.injEq] at h
    rw [← h]
    exact ⟨rfl, rfl⟩
  | some p =>
    simp only [apply_fill] at h
    cases hcost : lookupD st1.position_costs t with
    | none =>
      simp only [hcost] at h
      exact Option.noConfusion h
    | some cost =>
      simp only [hcost] at h
      by_cases hchg : 0 < c
      · rw [if_pos hchg] at h
        simp only [Option.some.injEq] at h
        rw [← h]
        exact ⟨rfl, rfl⟩
      · rw [if_neg hchg] at h
        simp only [Option.some.injEq] at h
        rw [← h]
        exact ⟨rfl, rfl⟩

theorem update_cases (st : Tracker) (t : String) (c : ℤ) (pr : Option ℚ)
    (b : Bool) (st' : Tracker)
    (h : update_position st t c pr = some (b, st')) :
    (b = false ∧ st' = st) ∨
    (b = true ∧ ∃ pos cfgT, lookupD st.positions t = some pos ∧
      lookupD st.config t = some cfgT ∧ ¬ cfgT.position_limit < |pos + c| ∧
      st'.positions = setD st.positions t (pos + c) ∧ st'.config = st.config) := by
  unfold update_position at h
  cases hpos : lookupD st.positions t with
  | none =>
    simp only [hpos, Option.some.injEq, Prod.mk.injEq] at h
    exact Or.inl ⟨h.1.symm, h.2.symm⟩
  | some pos =>
    simp only [hpos] at h
    cases hcfg : lookupD st.config t with
    | none =>
      simp only [hcfg] at h
      exact Option.noConfusion h
    | some cfgT =>
      simp only [hcfg] at h
      by_cases hlim : cfgT.position_limit < |pos + c|
      · rw [if_pos hlim] at h
        simp only [Option.some.injEq, Prod.mk.injEq] at h
        exact Or.inl ⟨h.1.symm, h.2.symm⟩
      · rw [if_neg hlim] at h
        cases happ : apply_fill
            { st with positions := setD st.positions t (pos + c) } t c (pos + c) pr with
        | none =>
          simp only [happ] at h
          exact Option.noConfusion h
        | some st2 =>
          simp only [happ, Option.some.injEq, Prod.mk.injEq] at h
          obtain ⟨hb, hst⟩ := h
          have hf := apply_fill_frame _ _ _ _ _ _ happ
          refine Or.inr ⟨hb.symm, pos, cfgT, rfl, rfl, hlim, ?_, ?_⟩
          · rw [← hst]
            exact hf.1
          · rw [← hst]
            exact hf.2

theorem update_preserves_inv (st : Tracker) (t : String) (c : ℤ) (pr : Option ℚ)
    (b : Bool) (st' : Tracker) (hinv : TrackInv st)
    (h : update_position st t c pr = some (b, st')) : TrackInv st' := by
  rcases update_cases st t c pr b st' h with ⟨_, rfl⟩ |
    ⟨_, pos, cfgT, hpos, hcfg, hlim, hsetpos, hsetcfg⟩
  · exact hinv
  · intro t' p' hp' c' hc'
    rw [hsetcfg] at hc'
    by_cases ht : t' = t
    · subst ht
      rw [hsetpos, lookup_setD_self] at hp'
      obtain rfl : pos + c = p' := by injection hp'
      obtain rfl : cfgT = c' := by rw [hcfg] at hc'; injection hc'
      exact le_of_not_lt hlim
    · rw [hsetpos, lookup_setD_ne _ _ _ _ ht] at hp'
      exact hinv t' p' hp' c' hc'

theorem run_preserves_inv (ops : List TrackerOp) :
    ∀ st st', TrackInv st → run_updates st ops = some st' → TrackInv st' := by
  induction ops with
  | nil =>
    intro st st' hinv h
    rw [run_updates] at h
    injection h with h
    exact h ▸ hinv
  | cons op rest ih =>
    intro st st' hinv h
    rw [run_updates] at h
    cases hu : update_position st op.ticker op.change op.price with
    | none => rw [hu] at h; cases h
    | some pr =>
      rcases pr with ⟨b, st1⟩
      rw [hu] at h
      exact ih st1 st'
        (update_preserves_inv st op.ticker op.change op.price b st1 hinv hu) h

/-- C1 (amended): for every sequence of changes proposed through
`update_position` starting from the freshly initialized ledger, at every
point each recorded per-ticker position satisfies
|position[ticker]| ≤ that instrument's position_limit; a change that would
breach this per-ticker limit is rejected. (The original claim also asserted
gross and net portfolio exposure limits; the source performs no such check,
see the counterexample.) -/
theorem position_limit_invariant_of_run (cfg : List (String × SecurityConfig))
    (hcfg : ∀ kv ∈ cfg, 0 ≤ kv.2.position_limit)
    (ops : List TrackerOp) (st' : Tracker)
    (h : run_updates (initTracker cfg) ops = some st')
    (t : String) (p : ℤ) (c : SecurityConfig)
    (hp : lookupD st'.positions t = some p)
    (hc : lookupD st'.config t = some c) :
    |p| ≤ c.position_limit :=
  run_preserves_inv ops (initTracker cfg) st' (init_inv cfg hcfg) h t p hp c hc

/-- Ledger state after accepting +50 on ticker A from the sample start. -/
def sampleRunSt : Tracker :=
  ⟨[("A", 50), ("B", 0)], [("A", 0), ("B", 0)], [("A", 0), ("B", 0)], sampleCfg⟩

/-- Witness for C1: a concrete accepted run through the ledger, with the
per-ticker bound evaluated at ticker A. -/
theorem position_limit_invariant_witness :
    run_updates (initTracker sampleCfg) [⟨"A", 50, none⟩] = some sampleRunSt ∧
    |(50 : ℤ)| ≤ (100 : ℤ) :=
  ⟨by norm_num +decide [run_updates, update_position, apply_fill, initTracker, sampleCfg,
      lookupD, setD, sampleRunSt],
   position_limit_invariant_of_run sampleCfg (by decide) [⟨"A", 50, none⟩]
     sampleRunSt
     (by norm_num +decide [run_updates, update_position, apply_fill, initTracker, sampleCfg,
        lookupD, setD, sampleRunSt])
     "A" 50 ⟨100, 1/100, 500, VolTier.LOW⟩
     (by norm_num +decide [sampleRunSt, lookupD])
     (by norm_num +decide [sampleRunSt, sampleCfg, lookupD])⟩

/-- Ledger state after accepting +100 on ticker A from the sample start. -/
def sampleStA : Tracker :=
  ⟨[("A", 100), ("B", 0)], [("A", 0), ("B", 0)], [("A", 0), ("B", 0)], sampleCfg⟩

/-- Ledger state after further accepting +100 on ticker B. -/
def sampleStAB : Tracker :=
  ⟨[("A", 100), ("B", 100)], [("A", 0), ("B", 0)], [("A", 0), ("B", 0)], sampleCfg⟩

/-- Counterexample to C1 as stated: with per-ticker limits of 100 on two
instruments, the ledger accepts +100 on A and then +100 on B, leaving gross
exposure Σ|position_i| = 200 and |Σ position_i| = 200. For portfolio limits
gross_limit = net_limit = 150 the second change breaches both portfolio
bounds yet is accepted: `update_position` checks no gross or net exposure
limit at all. -/
theorem gross_net_exposure_not_enforced :
    update_position (initTracker sampleCfg) "A" 100 none = some (true, sampleStA) ∧
    update_position sampleStA "B" 100 none = some (true, sampleStAB) ∧
    grossExposure sampleStAB = 200 ∧ |netSum sampleStAB| = 200 ∧
    ¬ ((200 : ℤ) ≤ 150) :=
  ⟨by norm_num +decide [update_position, apply_fill, initTracker, sampleCfg, lookupD, setD,
      sampleStA],
   by norm_num +decide [update_position, apply_fill, sampleStA, sampleCfg, lookupD, setD,
      sampleStAB],
   by norm_num +decide [grossExposure, sampleStAB],
   by norm_num +decide [netSum, sampleStAB],
   by norm_num⟩

/-- Tracker configuration for the cost-basis evaluation. -/
def c3cfg : List (String × SecurityConfig) :=
  [("A", ⟨1000, 1/100, 500, VolTier.LOW⟩)]

/-- Ledger state holding 10 units of A bought at 100 (cost basis 1000). -/
def c3st1 : Tracker := ⟨[("A", 10)], [("A", 1000)], [("A", 100)], c3cfg⟩

/-- Ledger state produced by the code after selling 4 units of A at 120. -/
def c3st2 : Tracker := ⟨[("A", 6)], [("A", 1000/3)], [("A", 120)], c3cfg⟩

/-- C3 (code bug): selling 4 of a 10-lot position carried at average cost
100 (cost basis 1000) at fill price 120. The code divides by the post-fill
position (6), leaving cost basis 1000 - 4·(1000/6) = 1000/3 ≈ 333.33,
whereas weighted-average-cost accounting (spec §4.2) leaves the
proportional 1000·(6/10) = 600 and realizes PnL (120-100)·4 = 80; the
tracker state has no realized-PnL component at all. -/
theorem reducing_fill_cost_basis_bug :
    update_position (initTracker c3cfg) "A" 10 (some 100) = some (true, c3st1) ∧
    update_position c3st1 "A" (-4) (some 120) = some (true, c3st2) ∧
    lookupD c3st2.position_costs "A" = some (1000/3) ∧
    spec_cost_after_reduce 10 1000 (-4) = 600 ∧
    spec_realized_pnl 10 1000 (-4) 120 = 80 ∧
    ((1000 : ℚ)/3 ≠ 600) :=
  ⟨by norm_num +decide [update_position, apply_fill, initTracker, c3cfg, lookupD, setD, c3st1],
   by norm_num +decide [update_position, apply_fill, c3st1, c3cfg, lookupD, setD, c3st2],
   by norm_num +decide [c3st2, lookupD],
   by norm_num [spec_cost_after_reduce],
   by norm_num [spec_realized_pnl],
   by norm_num⟩

/-- C9: whenever `update_position` returns a rejection (result `False`),
the returned ledger state is exactly the input state: the positions map,
the cost-basis map and the last-price map are all untouched. -/
theorem rejected_update_frame (st : Tracker) (ticker : String) (change : ℤ)
    (price : Option ℚ) (st' : Tracker)
    (h : update_position st ticker change price = some (false, st')) :
    st' = st := by
  rcases update_cases st ticker change price false st' h with ⟨_, h2⟩ | ⟨hb, _⟩
  · exact h2
  · exact Bool.noConfusion hb

/-- Witness for C9: the unknown ticker Z is rejected and the state comes
back unchanged. -/
theorem rejected_update_frame_witness :
    update_position (initTracker sampleCfg) "Z" 5 none =
      some (false, initTracker sampleCfg) ∧
    initTracker sampleCfg = initTracker sampleCfg :=
  ⟨by norm_num +decide [update_position, initTracker, sampleCfg, lookupD],
   rejected_update_frame (initTracker sampleCfg) "Z" 5 none (initTracker sampleCfg)
     (by norm_num +decide [update_position, initTracker, sampleCfg, lookupD])⟩

/-- Market-data table with one entry for ABC (bid 49, ask 50, liquidity
1000, empty book), parametrized by the volatility entry. -/
def tenderMd (vol : Option ℚ) : List (String × TickerMarket) :=
  [("ABC", ⟨50, 49, 50, vol, 1000, ⟨[], []⟩⟩)]

/-- The uncompetitive-SELL rejection decision. -/
def rejectAskDecision : TenderDecision :=
  ⟨"REJECT", "Tender price is not above the market ask price", none, none⟩

/-- Counterexample to C2 as stated: the same tender offer (id 1) appears
twice in a cycle; both evaluations produce a decision — the second
evaluation is not a no-op, because neither `evaluate_tender` nor the main
loop keeps any record of already-evaluated offer ids. -/
theorem duplicate_tender_reevaluated :
    process_tenders [⟨1, "ABC", 100, 50, "SELL"⟩, ⟨1, "ABC", 100, 50, "SELL"⟩]
        (tenderMd (some (1/20))) 400 ⟨some 1, some 100, 1/5⟩ =
      [Except.ok rejectAskDecision, Except.ok rejectAskDecision] ∧
    (2 : ℕ) ≠ 1 :=
  ⟨by norm_num +decide [process_tenders, evaluate_tender, tenderMd, lookupD,
      rejectAskDecision],
   by norm_num⟩

/-- C2 (amended): tender evaluation keeps no dedup state: each offer in the
per-cycle list — including one whose id already occurred — is evaluated
independently and contributes exactly one more decision (or error) to the
output; re-evaluating the same offer is deterministic (the function is
pure) but is not a no-op. -/
theorem tender_evaluation_dedup_free (ts : List Tender) (t : Tender)
    (md : List (String × TickerMarket)) (tr : ℚ) (cfg : TenderConfig) :
    process_tenders (ts ++ [t]) md tr cfg =
      process_tenders ts md tr cfg ++ [evaluate_tender t md tr cfg] ∧
    (process_tenders ts md tr cfg).length = ts.length := by
  constructor
  · simp [process_tenders]
  · simp [process_tenders]

/-- C6: for a nonzero per-order maximum m, the estimated close-out time of
a SELL (resp. BUY) tender is infinite (`none`) when the relevant-side
liquidity L = Σ ask (resp. bid) quantities is ≤ 0, and otherwise equals
⌈q/m⌉ · (m/L) + ⌈q/m⌉ (one tick of latency per order). -/
theorem close_out_time_formula (q : ℚ) (ob : OrderBook) (m : ℚ) (hm : m ≠ 0) :
    (estimate_close_out_time q ob "SELL" m =
      if (ob.asks.map OBLevel.quantity).sum ≤ 0 then Except.ok none
      else Except.ok (some (((⌈q / m⌉ : ℤ) : ℚ) * (m / (ob.asks.map OBLevel.quantity).sum)
        + ((⌈q / m⌉ : ℤ) : ℚ)))) ∧
    (estimate_close_out_time q ob "BUY" m =
      if (ob.bids.map OBLevel.quantity).sum ≤ 0 then Except.ok none
      else Except.ok (some (((⌈q / m⌉ : ℤ) : ℚ) * (m / (ob.bids.map OBLevel.quantity).sum)
        + ((⌈q / m⌉ : ℤ) : ℚ)))) := by
  constructor <;>
  · simp only [estimate_close_out_time, calculate_liquidity]
    norm_num +decide
    rw [if_neg hm]

/-- Order book with total ask-side quantity 5000 and bid-side 4000. -/
def c6ob : OrderBook := ⟨[⟨49, 4000⟩], [⟨50, 3000⟩, ⟨101/2, 2000⟩]⟩

/-- Witness for C6: the spec example — tender size 1000, max order size
200, ask liquidity 5000 gives 5·(200/5000) + 5 = 5.2 ticks. -/
theorem close_out_time_formula_witness :
    (200 : ℚ) ≠ 0 ∧
    estimate_close_out_time 1000 c6ob "SELL" 200 = Except.ok (some (26/5)) :=
  ⟨by norm_num,
   ((close_out_time_formula 1000 c6ob 200 (by norm_num)).1).trans
     (by norm_num [c6ob])⟩

/-- Counterexample to C7 as stated: a SELL offer priced at the market ask
(uncompetitive) evaluated against market data whose volatility entry is
None. The volatility price adjustment of tender.py line 35 runs before the
price-sanity check and raises, so the offer is not rejected with the
uncompetitive-price reason — no decision is produced at all. -/
theorem price_check_preceded_by_vol_adjustment :
    evaluate_tender ⟨2, "ABC", 100, 50, "SELL"⟩ (tenderMd none) 400
        ⟨some 1, some 100, 1/5⟩ =
      Except.error "TypeError: volatility is None" ∧
    (Except.error "TypeError: volatility is None" :
        Except String TenderDecision) ≠ Except.ok rejectAskDecision :=
  ⟨by norm_num +decide [evaluate_tender, tenderMd, lookupD], by simp⟩

/-- C7 (amended): once the volatility price adjustment can be computed
(the config has a volatility multiplier and the volatility value is not
None), the price-sanity check short-circuits ahead of every feasibility
and profitability check: a SELL offer priced ≤ the market ask, or a BUY
offer priced ≥ the market bid, is rejected with the uncompetitive-price
reason, whatever the order book, remaining time, and remaining
configuration. -/
theorem uncompetitive_price_rejected_early (t : Tender)
    (md : List (String × TickerMarket)) (tr : ℚ) (cfg : TenderConfig)
    (info : TickerMarket) (vm vol : ℚ)
    (hmd : lookupD md t.ticker = some info)
    (hvm : cfg.volatility_multiplier = some vm)
    (hvol : info.volatility = some vol) :
    (strUpper t.action = "SELL" → t.price ≤ info.ask →
      evaluate_tender t md tr cfg = Except.ok rejectAskDecision) ∧
    (strUpper t.action = "BUY" → info.bid ≤ t.price →
      evaluate_tender t md tr cfg =
        Except.ok ⟨"REJECT", "Tender price is not below the market bid price", none, none⟩) := by
  constructor
  · intro ha hp
    simp +decide [evaluate_tender, hmd, hvm, hvol, ha, hp, rejectAskDecision]
  · intro ha hp
    simp +decide [evaluate_tender, hmd, hvm, hvol, ha, hp]

/-- Witness for C7: concrete uncompetitive SELL offer rejected with the
uncompetitive-price reason. -/
theorem uncompetitive_price_rejected_early_witness :
    lookupD (tenderMd (some (1/20))) "ABC" =
      some ⟨50, 49, 50, some (1/20), 1000, ⟨[], []⟩⟩ ∧
    evaluate_tender ⟨3, "ABC", 100, 50, "SELL"⟩ (tenderMd (some (1/20))) 400
        ⟨some 1, some 100, 1/5⟩ = Except.ok rejectAskDecision :=
  ⟨by norm_num +decide [tenderMd, lookupD],
   (uncompetitive_price_rejected_early ⟨3, "ABC", 100, 50, "SELL"⟩
      (tenderMd (some (1/20))) 400 ⟨some 1, some 100, 1/5⟩
      ⟨50, 49, 50, some (1/20), 1000, ⟨[], []⟩⟩ 1 (1/20)
      (by norm_num +decide [tenderMd, lookupD]) rfl rfl).1
     (by decide) (by norm_num)⟩

/-- Counterexample to C8 as stated: a supported ticker with a single price
sample and liquidity -1 ≤ 0. The claim requires an invalid-input error
whenever liquidity ≤ 0, but the source returns the insufficient-data
default 0.05 before ever validating liquidity. -/
theorem volatility_default_skips_validation :
    calculate_volatility "ABC" [100] (-1) 0 0 600 =
      Except.ok (some (VolValue.defaultVol 0.05)) ∧
    ((-1 : ℚ) ≤ 0) :=
  ⟨by norm_num +decide [calculate_volatility], by norm_num⟩

/-- C8 (amended): for a supported ticker (ABC/XYZ case-insensitively) the
checks run in source order: fewer than 2 price samples returns the fixed
default 0.05 with no further validation; otherwise liquidity ≤ 0, and then
elapsed time outside [0, total], fail with an invalid-input error; and on
valid inputs the result is the formula value
(stddev of period returns + size/(liquidity+1)) · (1 − elapsed/total),
carried as its (variance, impact, decay) components. -/
theorem volatility_check_order (ticker : String) (prices : List ℚ)
    (liq e sz T : ℚ)
    (hsupp : strUpper ticker = "ABC" ∨ strUpper ticker = "XYZ") :
    (prices.length < 2 →
      calculate_volatility ticker prices liq e sz T =
        Except.ok (some (VolValue.defaultVol 0.05))) ∧
    (2 ≤ prices.length → liq ≤ 0 →
      calculate_volatility ticker prices liq e sz T =
        Except.error "Liquidity must be positive") ∧
    (2 ≤ prices.length → 0 < liq → (e < 0 ∨ T < e) →
      calculate_volatility ticker prices liq e sz T =
        Except.error "Elapsed time must be within range") ∧
    (2 ≤ prices.length → 0 < liq → 0 ≤ e → e ≤ T →
      calculate_volatility ticker prices liq e sz T =
        Except.ok (some (VolValue.formula (pop_variance (pct_returns prices))
          (sz / (liq + 1)) (1 - e / T)))) := by
  have hs : ¬ ¬ (strUpper ticker = "ABC" ∨ strUpper ticker = "XYZ") :=
    not_not_intro hsupp
  refine ⟨?_, ?_, ?_, ?_⟩
  · intro h1
    unfold calculate_volatility
    rw [if_neg hs, if_pos h1]
  · intro h1 h2
    unfold calculate_volatility
    rw [if_neg hs, if_neg (not_lt.mpr h1), if_pos h2]
  · intro h1 h2 h3
    unfold calculate_volatility
    rw [if_neg hs, if_neg (not_lt.mpr h1), if_neg (not_le.mpr h2), if_pos h3]
  · intro h1 h2 h3 h4
    unfold calculate_volatility
    rw [if_neg hs, if_neg (not_lt.mpr h1), if_neg (not_le.mpr h2),
      if_neg (not_or.mpr ⟨not_lt.mpr h3, not_lt.mpr h4⟩)]

/-- Witness for C8: ABC with prices [100, 110], liquidity 10, elapsed 0 of
600, tender size 5: one return of 10%, variance 0, impact 5/11, decay 1. -/
theorem volatility_check_order_witness :
    (strUpper "ABC" = "ABC" ∨ strUpper "ABC" = "XYZ") ∧
    calculate_volatility "ABC" [100, 110] 10 0 5 600 =
      Except.ok (some (VolValue.formula 0 (5/11) 1)) := by
  have happ := (volatility_check_order "ABC" [100, 110] 10 0 5 600
    (Or.inl (by decide))).2.2.2
  refine ⟨Or.inl (by decide), ?_⟩
  rw [happ (by norm_num) (by norm_num) (by norm_num) (by norm_num)]
  norm_num [pop_variance, pct_returns, listMean]

/-- C10: for any ticker other than ABC/XYZ (case-insensitive) the
volatility estimator returns None without raising and without examining
prices, liquidity, elapsed time or tender size — the arguments are
arbitrary, including values the spec declares invalid — and a None
volatility entry reaching `evaluate_tender` flows into the price
adjustment, where the evaluation dies with the TypeError of
`None * multiplier`. -/
theorem unsupported_ticker_returns_none (ticker : String)
    (hsupp : ¬ (strUpper ticker = "ABC" ∨ strUpper ticker = "XYZ"))
    (prices : List ℚ) (liq e sz T : ℚ)
    (t : Tender) (md : List (String × TickerMarket)) (tr : ℚ)
    (cfg : TenderConfig) (info : TickerMarket) (vm : ℚ)
    (hmd : lookupD md t.ticker = some info)
    (hvol : info.volatility = none)
    (hvm : cfg.volatility_multiplier = some vm) :
    calculate_volatility ticker prices liq e sz T = Except.ok none ∧
    evaluate_tender t md tr cfg = Except.error "TypeError: volatility is None" := by
  constructor
  · unfold calculate_volatility
    rw [if_pos hsupp]
  · simp only [evaluate_tender, hmd, hvm, hvol]

/-- Witness for C10: ticker FOO with negative liquidity and negative
elapsed time still yields None, and a None volatility entry makes the
tender evaluation raise in the price adjustment. -/
theorem unsupported_ticker_returns_none_witness :
    (¬ (strUpper "FOO" = "ABC" ∨ strUpper "FOO" = "XYZ")) ∧
    calculate_volatility "FOO" [100] (-1) (-5) 0 600 = Except.ok none ∧
    evaluate_tender ⟨4, "ABC", 100, 50, "SELL"⟩ (tenderMd none) 400
      ⟨some 1, some 100, 1/5⟩ = Except.error "TypeError: volatility is None" := by
  have h := unsupported_ticker_returns_none "FOO" (by decide) [100] (-1) (-5) 0 600
    ⟨4, "ABC", 100, 50, "SELL"⟩ (tenderMd none) 400 ⟨some 1, some 100, 1/5⟩
    ⟨50, 49, 50, none, 1000, ⟨[], []⟩⟩ 1
    (by norm_num +decide [tenderMd, lookupD]) rfl rfl
  exact ⟨by decide, h.1, h.2⟩

theorem listSum_const (l : List ℚ) (c : ℚ) (h : ∀ x ∈ l, x = c) :
    l.sum = (l.length : ℚ) * c := by
  induction l with
  | nil => simp
  | cons hd tl ih =>
    have hhd : hd = c := h hd (List.mem_cons_self _ _)
    have htl := ih (fun x hx => h x (List.mem_cons_of_mem _ hx))
    simp [hhd, htl]
    ring

theorem listMean_const (l : List ℚ) (c : ℚ) (hne : l ≠ [])
    (h : ∀ x ∈ l, x = c) : listMean l = c := by
  have hlen : (l.length : ℚ) ≠ 0 :=
    Nat.cast_ne_zero.mpr (List.length_pos.mpr hne).ne'
  rw [listMean, listSum_const l c h, mul_comm, mul_div_assoc, div_self hlen, mul_one]

theorem bessel_variance_const (l : List ℚ) (c : ℚ) (hne : l ≠ [])
    (h : ∀ x ∈ l, x = c) : bessel_variance l = 0 := by
  rw [bessel_variance]
  have hz : (l.map (fun x => (x - listMean l) ^ 2)).sum = 0 := by
    apply List.sum_eq_zero
    intro y hy
    obtain ⟨x, hx, rfl⟩ := List.mem_map.mp hy
    rw [h x hx, listMean_const l c hne h]
    ring
  rw [hz, zero_div]

/-- C5: on a price window of at least 2 samples in which all prices are
equal, the Bessel-corrected sample variance (the square of the stdev the
source computes) is 0, and the mean-reversion signal adjustment used by
`execute_trades` stays 1 — the z-score is treated as 0 by the
`std_dev_price > 0` guard, no directional adjustment fires, and no
division-by-zero is possible since the division is guarded away. -/
theorem constant_window_yields_hold (hist : List ℚ) (c : ℚ)
    (hlen : 2 ≤ hist.length) (hconst : ∀ x ∈ hist, x = c) (mid : ℚ) :
    bessel_variance hist = 0 ∧ mean_reversion_adjustment hist mid = 1 := by
  have hne : hist ≠ [] := by
    intro e
    rw [e] at hlen
    simp at hlen
  have hv := bessel_variance_const hist c hne hconst
  refine ⟨hv, ?_⟩
  simp [mean_reversion_adjustment, hv]

/-- Witness for C5: the constant window [100, 100, 100]. -/
theorem constant_window_yields_hold_witness :
    (2 ≤ ([100, 100, 100] : List ℚ).length) ∧
    bessel_variance [100, 100, 100] = 0 ∧
    mean_reversion_adjustment [100, 100, 100] 100 = 1 := by
  have w := constant_window_yields_hold [100, 100, 100] 100 (by norm_num)
    (by intro x hx; simp at hx; exact hx) 100
  exact ⟨by norm_num, w.1, w.2⟩

/-- Counterexample to C4 as stated: ticker A at bid 99 / ask 101, constant
history, position 850 of max 1000 (skew 0.85 > 0.8), MEDIUM tier,
min_order_size 100, base size 100, max_order_size 500. Emergency unwind
fires: the ask collapses to the bid (99) and the sell size is the 2.5-scaled
462, but the buy side — whose base size the source sets to 0 — is clamped
back up to min_order_size by `min(max(min_order_size, int(0)), max)`,
giving buy size 100, and a buy order IS submitted (final flag true). -/
theorem emergency_unwind_min_size_order :
    execute_trades ⟨"A", 99, 101⟩ [100, 100] 850 ⟨1000, 1/50, 500, VolTier.MEDIUM⟩
        ⟨1/20, 100, 100, 1000⟩ =
      TradeOutcome.quotes (197/2) 99 100 462 true true ∧
    (100 : ℤ) ≠ 0 := by
  constructor
  · norm_num +decide [execute_trades, pushHistory, mean_reversion_adjustment,
      bessel_variance, listMean, spread_multiplier, size_multiplier, truncQ, round2,
      clamp_size, skewed_buy_base, skewed_sell_base, abs_of_nonneg]
  · norm_num

/-- C4 (amended): whenever quoting proceeds (valid quote, narrow market
spread, enough history, nonzero max position) and |skew| > 0.8, quoting
collapses to one side: the inventory-reducing side is priced at the
opposite market touch with its base size scaled by 2.5 before the final
clamp, and the accumulating side's base size is forced to 0 — but the
final clamp `min(max(min_order_size, 0), max_order_size)` is still applied
to it, so an order is still submitted on the accumulating side exactly
when that clamp is nonzero (for instance whenever
0 < min_order_size ≤ max_order_size) and |position| < max position. -/
theorem emergency_unwind_behavior (sec : Security) (hist : List ℚ) (pos : ℤ)
    (cfg : SecurityConfig) (params : MMParams)
    (hbid : 0 < sec.bid) (hask : sec.bid < sec.ask)
    (hspread : ¬ (7 : ℚ)/200 < (sec.ask - sec.bid) / ((sec.bid + sec.ask) / 2))
    (hlen : ¬ (pushHistory hist 20 ((sec.bid + sec.ask) / 2)).length < 2)
    (hmp : ¬ params.max_position_size = 0)
    (hskew : (4 : ℚ)/5 < |(pos : ℚ) / params.max_position_size|) :
    (0 < (pos : ℚ) / params.max_position_size →
      askOf (execute_trades sec hist pos cfg params) = some sec.bid ∧
      buySizeOf (execute_trades sec hist pos cfg params) =
        some (clamp_size params.min_order_size cfg.max_order_size 0) ∧
      sellSizeOf (execute_trades sec hist pos cfg params) =
        some (clamp_size params.min_order_size cfg.max_order_size
          (skewed_sell_base
            (truncQ (params.base_order_size * size_multiplier cfg.volatility))
            ((pos : ℚ) / params.max_position_size)
            (mean_reversion_adjustment
              (pushHistory hist 20 ((sec.bid + sec.ask) / 2))
              ((sec.bid + sec.ask) / 2)) * (5/2))) ∧
      buySubmittedOf (execute_trades sec hist pos cfg params) =
        some (if clamp_size params.min_order_size cfg.max_order_size 0 ≠ 0 ∧
          |(pos : ℚ)| < params.max_position_size then true else false)) ∧
    (¬ 0 < (pos : ℚ) / params.max_position_size →
      bidOf (execute_trades sec hist pos cfg params) = some sec.ask ∧
      sellSizeOf (execute_trades sec hist pos cfg params) =
        some (clamp_size params.min_order_size cfg.max_order_size 0) ∧
      buySizeOf (execute_trades sec hist pos cfg params) =
        some (clamp_size params.min_order_size cfg.max_order_size
          (skewed_buy_base
            (truncQ (params.base_order_size * size_multiplier cfg.volatility))
            ((pos : ℚ) / params.max_position_size)
            (mean_reversion_adjustment
              (pushHistory hist 20 ((sec.bid + sec.ask) / 2))
              ((sec.bid + sec.ask) / 2)) * (5/2))) ∧
      sellSubmittedOf (execute_trades sec hist pos cfg params) =
        some (if clamp_size params.min_order_size cfg.max_order_size 0 ≠ 0 ∧
          |(pos : ℚ)| < params.max_position_size then true else false)) := by
  have hval : ¬ (sec.bid ≤ 0 ∨ sec.ask ≤ 0 ∨ sec.ask ≤ sec.bid) := by
    push_neg
    exact ⟨hbid, lt_trans hbid hask, hask⟩
  constructor
  · intro hsign
    have hno : ¬ ((4 : ℚ)/5 < |(pos : ℚ) / params.max_position_size| ∧
        ¬ 0 < (pos : ℚ) / params.max_position_size) := fun h => h.2 hsign
    simp only [execute_trades, if_neg hval, if_neg hspread, if_neg hlen, if_neg hmp,
      if_pos (And.intro hskew hsign), if_neg hno, if_pos hskew, if_pos hsign,
      askOf, buySizeOf, sellSizeOf, buySubmittedOf]
    exact ⟨trivial, trivial, trivial, trivial⟩
  · intro hsign
    have hyes : ((4 : ℚ)/5 < |(pos : ℚ) / params.max_position_size| ∧
        ¬ 0 < (pos : ℚ) / params.max_position_size) := ⟨hskew, hsign⟩
    have hno : ¬ ((4 : ℚ)/5 < |(pos : ℚ) / params.max_position_size| ∧
        0 < (pos : ℚ) / params.max_position_size) := fun h => hsign h.2
    simp only [execute_trades, if_neg hval, if_neg hspread, if_neg hlen, if_neg hmp,
      if_pos hyes, if_neg hno, if_pos hskew, if_neg hsign,
      bidOf, buySizeOf, sellSizeOf, sellSubmittedOf]
    exact ⟨trivial, trivial, trivial, trivial⟩

/-- Witness for C4: the amended theorem applied to the concrete emergency
long position — skew 0.85, ask collapsed to the bid, buy size clamped back
up to 100 and a buy order submitted. -/
theorem emergency_unwind_behavior_witness :
    (4 : ℚ)/5 < |((850 : ℤ) : ℚ) / (1000 : ℚ)| ∧
    askOf (execute_trades ⟨"A", 99, 101⟩ [100, 100] 850
      ⟨1000, 1/50, 500, VolTier.MEDIUM⟩ ⟨1/20, 100, 100, 1000⟩) = some 99 ∧
    buySizeOf (execute_trades ⟨"A", 99, 101⟩ [100, 100] 850
      ⟨1000, 1/50, 500, VolTier.MEDIUM⟩ ⟨1/20, 100, 100, 1000⟩) = some 100 ∧
    buySubmittedOf (execute_trades ⟨"A", 99, 101⟩ [100, 100] 850
      ⟨1000, 1/50, 500, VolTier.MEDIUM⟩ ⟨1/20, 100, 100, 1000⟩) = some true := by
  have h := (emergency_unwind_behavior ⟨"A", 99, 101⟩ [100, 100] 850
    ⟨1000, 1/50, 500, VolTier.MEDIUM⟩ ⟨1/20, 100, 100, 1000⟩
    (by norm_num) (by norm_num) (by norm_num) (by norm_num [pushHistory])
    (by norm_num) (by norm_num [abs_of_nonneg])).1 (by norm_num)
  obtain ⟨h1, h2, h3, h4⟩ := h
  refine ⟨by norm_num [abs_of_nonneg], ?_, ?_, ?_⟩
  · exact h1
  · rw [h2]
    norm_num [clamp_size, truncQ]
  · rw [h4]
    norm_num [clamp_size, truncQ, abs_of_nonneg]
